import Mathlib

/-!
Shallow embedding of `src/app.ts` (simple-pubsub): a publish/subscribe
dispatcher, four stateful vending machines' subscribers, and the machine
state (stock level plus two boolean notification latches).

Conventions of the embedding:
* TS `number` quantities and stock levels become `Int` (stock may go
  negative, as the source allows).
* The mutable `Machine[]` array shared by the subscribers becomes a
  `List Machine` threaded through each handler; a handler returns the
  updated list together with the list of events it passed to
  `pubSubService.publish` (in call order).
* `Array.prototype.findIndex` followed by an in-place update of
  `machines[machineIndex]` is rendered as structural recursion that
  updates the first element whose `id` matches (later elements untouched),
  which is exactly the observable effect of the source.
-/

/-- `class Machine` (src/app.ts lines 184-209): public mutable `stockLevel`
and `id`, private latches `lowStockWarningFired` / `stockLevelOkFired`
accessed through getters/setters. -/
structure Machine where
  id : String
  stockLevel : Int
  lowStockWarningFired : Bool
  stockLevelOkFired : Bool
  deriving DecidableEq, Repr

/-- `new Machine(id)`: `stockLevel = 10`, both latches `false`. -/
def Machine.create (id : String) : Machine :=
  { id := id, stockLevel := 10, lowStockWarningFired := false, stockLevelOkFired := false }

/-- The closed event variants of src/app.ts: `MachineSaleEvent(sold, machineId)`,
`MachineRefillEvent(refill, machineId)`, `LowStockWarningEvent(machineId)`,
`StockLevelOkEvent(machineId)`. -/
inductive IEvent where
  | MachineSaleEvent (sold : Int) (machineId : String)
  | MachineRefillEvent (refill : Int) (machineId : String)
  | LowStockWarningEvent (machineId : String)
  | StockLevelOkEvent (machineId : String)
  deriving DecidableEq, Repr

/-- `IEvent.type()`: the kind string each event class returns. -/
def IEvent.type : IEvent → String
  | .MachineSaleEvent _ _ => "sale"
  | .MachineRefillEvent _ _ => "refill"
  | .LowStockWarningEvent _ => "lowStockWarning"
  | .StockLevelOkEvent _ => "stockLevelOk"

namespace MachineSaleSubscriber

/-- `MachineSaleSubscriber.handle(event)` (src/app.ts lines 111-123), applied
to `MachineSaleEvent(sold, machineId)`: find the first machine with matching
id; if found, subtract `sold` from its `stockLevel`, and if the resulting
stock is `< 3` publish `LowStockWarningEvent` for that machine.  Note the
source checks only `stockLevel < 3`; it neither reads nor writes the
`lowStockWarningFired` latch. -/
def handle (sold : Int) (machineId : String) : List Machine → List Machine × List IEvent
  | [] => ([], [])
  | m :: rest =>
    if m.id = machineId then
      let m' : Machine := { m with stockLevel := m.stockLevel - sold }
      if m'.stockLevel < 3 then
        (m' :: rest, [IEvent.LowStockWarningEvent m'.id])
      else
        (m' :: rest, [])
    else
      let r := handle sold machineId rest
      (m :: r.1, r.2)

end MachineSaleSubscriber

namespace MachineRefillSubscriber

/-- `MachineRefillSubscriber.handle(event)` (src/app.ts lines 135-148), applied
to `MachineRefillEvent(refill, machineId)`: find the first machine with
matching id; if found, record `previousStockLevel`, add `refill` to
`stockLevel`, and if `previousStockLevel < 3 && stockLevel >= 3`
publish `StockLevelOkEvent` for that machine. -/
def handle (refill : Int) (machineId : String) : List Machine → List Machine × List IEvent
  | [] => ([], [])
  | m :: rest =>
    if m.id = machineId then
      let previousStockLevel := m.stockLevel
      let m' : Machine := { m with stockLevel := m.stockLevel + refill }
      if previousStockLevel < 3 ∧ 3 ≤ m'.stockLevel then
        (m' :: rest, [IEvent.StockLevelOkEvent m'.id])
      else
        (m' :: rest, [])
    else
      let r := handle refill machineId rest
      (m :: r.1, r.2)

end MachineRefillSubscriber

namespace LowStockWarningSubscriber

/-- Scan of src/app.ts lines 156-161: find the first machine with matching id;
if its `stockLevel < 3` and `!isLowStockWarningFired()`, set the latch to
`true` and publish `LowStockWarningEvent` for it. -/
def scan (machineId : String) : List Machine → List Machine × List IEvent
  | [] => ([], [])
  | m :: rest =>
    if m.id = machineId then
      if m.stockLevel < 3 ∧ m.lowStockWarningFired = false then
        ({ m with lowStockWarningFired := true } :: rest, [IEvent.LowStockWarningEvent m.id])
      else
        (m :: rest, [])
    else
      let r := scan machineId rest
      (m :: r.1, r.2)

/-- `LowStockWarningSubscriber.handle(event)` (src/app.ts lines 151-164): the
`instanceof MachineSaleEvent` guard, then the latch-guarded scan. -/
def handle (e : IEvent) (machines : List Machine) : List Machine × List IEvent :=
  match e with
  | .MachineSaleEvent _ machineId => scan machineId machines
  | _ => (machines, [])

end LowStockWarningSubscriber

namespace StockLevelOkSubscriber

/-- Scan of src/app.ts lines 171-176: find the first machine with matching id;
if its `stockLevel >= 3` and `!isStockLevelOkFired()`, set the latch to
`true` and publish `StockLevelOkEvent` for it. -/
def scan (machineId : String) : List Machine → List Machine × List IEvent
  | [] => ([], [])
  | m :: rest =>
    if m.id = machineId then
      if 3 ≤ m.stockLevel ∧ m.stockLevelOkFired = false then
        ({ m with stockLevelOkFired := true } :: rest, [IEvent.StockLevelOkEvent m.id])
      else
        (m :: rest, [])
    else
      let r := scan machineId rest
      (m :: r.1, r.2)

/-- `StockLevelOkSubscriber.handle(event)` (src/app.ts lines 166-179): the
`instanceof MachineRefillEvent` guard, then the latch-guarded scan. -/
def handle (e : IEvent) (machines : List Machine) : List Machine × List IEvent :=
  match e with
  | .MachineRefillEvent _ machineId => scan machineId machines
  | _ => (machines, [])

end StockLevelOkSubscriber

/-!
## The dispatcher (`class PublishSubscribeService`, src/app.ts lines 20-43)

The TS field `subscribers` is a dictionary from kind to an array OBJECT of
handler references.  JS aliasing matters for the snapshot behaviour of
`publish` (it holds a reference to the array while handlers may mutate the
registry), so arrays are explicit: `subscribers` maps a kind to the id of its
current array, `arrays` gives each array id its contents, and `next` is the
next unused array id.  Handlers are compared with `!==` (reference identity)
in the source, so a handler is modelled as a bare `Nat` identity. -/
structure PublishSubscribeService where
  subscribers : String → Option Nat
  arrays : Nat → List Nat
  next : Nat

namespace PublishSubscribeService

/-- `subscribe(type, handler)` (src/app.ts lines 23-28): if no entry for
`type`, assign a fresh empty array; then push `handler` onto the entry's
array (in place — other kinds aliasing is impossible since every array is
allocated fresh for one kind). -/
def subscribe (ps : PublishSubscribeService) (type : String) (handler : Nat) :
    PublishSubscribeService :=
  match ps.subscribers type with
  | none =>
      { subscribers := fun k => if k = type then some ps.next else ps.subscribers k
        arrays := fun a => if a = ps.next then [handler] else ps.arrays a
        next := ps.next + 1 }
  | some aid =>
      { ps with arrays := fun a => if a = aid then ps.arrays aid ++ [handler] else ps.arrays a }

/-- `unsubscribe(type, handler)` (src/app.ts lines 30-35): if an entry
exists, replace it by a NEW array holding `filter(s => s !== handler)` of
the old contents; the old array object is left untouched (a `publish` pass
that captured it keeps iterating over it).  If no entry exists, do nothing. -/
def unsubscribe (ps : PublishSubscribeService) (type : String) (handler : Nat) :
    PublishSubscribeService :=
  match ps.subscribers type with
  | none => ps
  | some aid =>
      { subscribers := fun k => if k = type then some ps.next else ps.subscribers k
        arrays := fun a => if a = ps.next then (ps.arrays aid).filter (fun x => x != handler)
                           else ps.arrays a
        next := ps.next + 1 }

end PublishSubscribeService

/-- A registry call a handler may make during its `handle` invocation. -/
inductive RegAction where
  | subscribeAct (type : String) (handler : Nat)
  | unsubscribeAct (type : String) (handler : Nat)
  deriving DecidableEq, Repr

def applyRegAction (ps : PublishSubscribeService) : RegAction → PublishSubscribeService
  | .subscribeAct t h => ps.subscribe t h
  | .unsubscribeAct t h => ps.unsubscribe t h

namespace PublishSubscribeService

/-- The `subscribers.forEach(subscriber => subscriber.handle(event))` loop of
`publish` (src/app.ts line 40), per ECMAScript `forEach` semantics: the
length `len` of the captured array is read once when the loop starts; the
loop visits indices `0..len-1`, reading the element from the array object
`aid` at visit time (elements pushed after the start lie beyond `len` and
are never visited; a missing index is skipped).  `behavior h` lists the
registry calls handler `h` performs inside its `handle` call.  Returns the
final registry state and the handlers invoked, in order. -/
def publishLoop (behavior : Nat → List RegAction) (aid len : Nat) :
    Nat → PublishSubscribeService → PublishSubscribeService × List Nat
  | 0, ps => (ps, [])
  | n + 1, ps =>
    match (ps.arrays aid)[len - (n + 1)]? with
    | none => publishLoop behavior aid len n ps
    | some h =>
      let ps' := (behavior h).foldl applyRegAction ps
      let r := publishLoop behavior aid len n ps'
      (r.1, h :: r.2)

/-- `publish(event)` (src/app.ts lines 37-42): look up the array for the
event's kind; if none, return with no effect; otherwise run the `forEach`
loop over the captured array reference. -/
def publish (behavior : Nat → List RegAction) (ps : PublishSubscribeService)
    (type : String) : PublishSubscribeService × List Nat :=
  match ps.subscribers type with
  | none => (ps, [])
  | some aid => publishLoop behavior aid (ps.arrays aid).length (ps.arrays aid).length ps

end PublishSubscribeService

/-- The `forEach` delivery of `publish` under JS exception semantics: the
dispatcher wraps no handler call in try/catch, so the first handler whose
`handle` throws aborts the loop and its exception propagates to the caller
of `publish`.  `throws h` is `some e` when handler `h` throws `e`.  Returns
the handlers invoked (in order, the throwing one included) and the
propagated exception, if any. -/
def deliverNoCatch (throws : Nat → Option String) : List Nat → List Nat × Option String
  | [] => ([], none)
  | h :: rest =>
    match throws h with
    | some e => ([h], some e)
    | none =>
      let r := deliverNoCatch throws rest
      (h :: r.1, r.2)

/-- `publish` (src/app.ts lines 37-42) with throwing handlers: the kind
lookup, then the uncaught `forEach` delivery. -/
def publishNoCatch (throws : Nat → Option String) (ps : PublishSubscribeService)
    (type : String) : List Nat × Option String :=
  match ps.subscribers type with
  | none => ([], none)
  | some aid => deliverNoCatch throws (ps.arrays aid)

/-!
## System-level dispatch over the four concrete subscribers
-/

/-- References to the four subscriber objects constructed in the program
(src/app.ts lines 244-253). -/
inductive SubscriberRef where
  | saleSubscriber
  | refillSubscriber
  | lowStockWarningSubscriber
  | stockLevelOkSubscriber
  deriving DecidableEq, Repr

/-- Dispatch of `handle(event)` on a subscriber reference.  A sale (resp.
refill) subscriber receiving an event of the wrong shape would fail in the
source (the event lacks the quantity accessor); the program never wires one
that way and no claim exercises that case, so it is rendered as a no-op. -/
def handleRef (s : SubscriberRef) (e : IEvent) (ms : List Machine) :
    List Machine × List IEvent :=
  match s, e with
  | .saleSubscriber, .MachineSaleEvent q mid => MachineSaleSubscriber.handle q mid ms
  | .refillSubscriber, .MachineRefillEvent q mid => MachineRefillSubscriber.handle q mid ms
  | .lowStockWarningSubscriber, e => LowStockWarningSubscriber.handle e ms
  | .stockLevelOkSubscriber, e => StockLevelOkSubscriber.handle e ms
  | _, _ => (ms, [])

/-- The `forEach` delivery of one published event to a list of subscriber
references, threading the shared machine list and collecting, in order, the
events the handlers pass to `pubSubService.publish`. -/
def deliverAll (e : IEvent) : List SubscriberRef → List Machine → List Machine × List IEvent
  | [], ms => (ms, [])
  | s :: rest, ms =>
    let r1 := handleRef s e ms
    let r2 := deliverAll e rest r1.1
    (r2.1, r1.2 ++ r2.2)

/-- The shared state the dispatcher and subscribers close over: the
subscription registry and the machine array. -/
structure SystemState where
  registry : String → Option (List SubscriberRef)
  machines : List Machine

/-- `publish(event)` at the system level: look up the registry entry for
`event.type()`; if none, return with no effect; otherwise deliver to each
registered subscriber in registration order. -/
def systemPublish (st : SystemState) (e : IEvent) : SystemState × List IEvent :=
  match st.registry e.type with
  | none => (st, [])
  | some subs =>
    let r := deliverAll e subs st.machines
    ({ st with machines := r.1 }, r.2)

/-!
## Runs: arbitrary sequences of handler invocations
-/

/-- One invocation of one of the four subscribers' `handle` methods.
`saleOp q mid` is `MachineSaleSubscriber.handle(MachineSaleEvent(q, mid))`,
`refillOp` likewise; the notification subscribers take an arbitrary event,
matching their `IEvent` signature. -/
inductive Op where
  | saleOp (sold : Int) (machineId : String)
  | refillOp (refill : Int) (machineId : String)
  | lowStockOp (e : IEvent)
  | stockOkOp (e : IEvent)
  deriving DecidableEq, Repr

def applyOp (ms : List Machine) : Op → List Machine × List IEvent
  | .saleOp q mid => MachineSaleSubscriber.handle q mid ms
  | .refillOp q mid => MachineRefillSubscriber.handle q mid ms
  | .lowStockOp e => LowStockWarningSubscriber.handle e ms
  | .stockOkOp e => StockLevelOkSubscriber.handle e ms

/-- The machine state after a sequence of handler invocations. -/
def runOps : List Op → List Machine → List Machine
  | [], ms => ms
  | op :: rest, ms => runOps rest (applyOp ms op).1

/-- Number of `LowStockWarningEvent machineId` occurrences in an event list. -/
def countWarn (machineId : String) (evs : List IEvent) : Nat :=
  evs.countP (fun e => decide (e = IEvent.LowStockWarningEvent machineId))

/-- Number of `StockLevelOkEvent machineId` occurrences in an event list. -/
def countOk (machineId : String) (evs : List IEvent) : Nat :=
  evs.countP (fun e => decide (e = IEvent.StockLevelOkEvent machineId))

/-- Total number of `LowStockWarningEvent machineId` publications made by
`LowStockWarningSubscriber` (and nobody else) over a run. -/
def lswRunCount (machineId : String) : List Op → List Machine → Nat
  | [], _ => 0
  | op :: rest, ms =>
    (match op with
     | .lowStockOp e => countWarn machineId (LowStockWarningSubscriber.handle e ms).2
     | _ => 0) + lswRunCount machineId rest (applyOp ms op).1

/-- Total number of `StockLevelOkEvent machineId` publications made by
`StockLevelOkSubscriber` (and nobody else) over a run. -/
def sloRunCount (machineId : String) : List Op → List Machine → Nat
  | [], _ => 0
  | op :: rest, ms =>
    (match op with
     | .stockOkOp e => countOk machineId (StockLevelOkSubscriber.handle e ms).2
     | _ => 0) + sloRunCount machineId rest (applyOp ms op).1

/-- The `lowStockWarningFired` latch of the first machine whose id matches
(`false` when no machine matches) — the machine every handler acts on. -/
def firstLatchW (machineId : String) : List Machine → Bool
  | [] => false
  | m :: rest => if m.id = machineId then m.lowStockWarningFired else firstLatchW machineId rest

/-- The `stockLevelOkFired` latch of the first machine whose id matches. -/
def firstLatchO (machineId : String) : List Machine → Bool
  | [] => false
  | m :: rest => if m.id = machineId then m.stockLevelOkFired else firstLatchO machineId rest

/-- Relation between a machine and its update by one handler step: the id is
preserved and each latch, once `true`, stays `true`. -/
def MachStep (m m' : Machine) : Prop :=
  m'.id = m.id
  ∧ (m.lowStockWarningFired = true → m'.lowStockWarningFired = true)
  ∧ (m.stockLevelOkFired = true → m'.stockLevelOkFired = true)

/-- A concrete registry instance used in witness statements: kind `"sale"`
maps to array 0 with contents `[1, 2, 3]`; the next fresh array id is 1. -/
def sampleService : PublishSubscribeService :=
  { subscribers := fun k => if k = "sale" then some 0 else none
    arrays := fun a => if a = 0 then [1, 2, 3] else []
    next := 1 }

/-- A concrete registry instance with a duplicate registration of handler 1
for kind `"sale"` (array 0 = `[1, 2, 1]`). -/
def sampleServiceDup : PublishSubscribeService :=
  { subscribers := fun k => if k = "sale" then some 0 else none
    arrays := fun a => if a = 0 then [1, 2, 1] else []
    next := 1 }

/-- A concrete system state with no subscriptions and one fresh machine. -/
def sampleSystem : SystemState :=
  { registry := fun _ => none, machines := [Machine.create "001"] }

/-!
## Lemmas: latch monotonicity of every handler step
-/
lemma machStep_rfl (m : Machine) : MachStep m m := ⟨rfl, id, id⟩

lemma forall₂_machStep_refl (ms : List Machine) : List.Forall₂ MachStep ms ms :=
  List.forall₂_same.2 (fun x _ => machStep_rfl x)

lemma forall₂_machStep_trans {a b c : List Machine} (h1 : List.Forall₂ MachStep a b)
    (h2 : List.Forall₂ MachStep b c) : List.Forall₂ MachStep a c := by
  induction h1 generalizing c with
  | nil => cases h2; exact .nil
  | cons hab _ ih =>
    cases h2 with
    | cons hbc h2' =>
      exact .cons ⟨hbc.1.trans hab.1, fun t => hbc.2.1 (hab.2.1 t), fun t => hbc.2.2 (hab.2.2 t)⟩
        (ih h2')

lemma saleHandle_mono (q : Int) (mid : String) :
    ∀ ms, List.Forall₂ MachStep ms (MachineSaleSubscriber.handle q mid ms).1
  | [] => List.Forall₂.nil
  | m :: rest => by
    show List.Forall₂ MachStep (m :: rest) (MachineSaleSubscriber.handle q mid (m :: rest)).1
    simp only [MachineSaleSubscriber.handle]
    split
    · split
      · exact List.Forall₂.cons ⟨rfl, id, id⟩ (forall₂_machStep_refl rest)
      · exact List.Forall₂.cons ⟨rfl, id, id⟩ (forall₂_machStep_refl rest)
    · exact List.Forall₂.cons (machStep_rfl m) (saleHandle_mono q mid rest)

lemma refillHandle_mono (q : Int) (mid : String) :
    ∀ ms, List.Forall₂ MachStep ms (MachineRefillSubscriber.handle q mid ms).1
  | [] => List.Forall₂.nil
  | m :: rest => by
    show List.Forall₂ MachStep (m :: rest) (MachineRefillSubscriber.handle q mid (m :: rest)).1
    simp only [MachineRefillSubscriber.handle]
    split
    · split
      · exact List.Forall₂.cons ⟨rfl, id, id⟩ (forall₂_machStep_refl rest)
      · exact List.Forall₂.cons ⟨rfl, id, id⟩ (forall₂_machStep_refl rest)
    · exact List.Forall₂.cons (machStep_rfl m) (refillHandle_mono q mid rest)

lemma scanW_mono (mid : String) :
    ∀ ms, List.Forall₂ MachStep ms (LowStockWarningSubscriber.scan mid ms).1
  | [] => List.Forall₂.nil
  | m :: rest => by
    show List.Forall₂ MachStep (m :: rest) (LowStockWarningSubscriber.scan mid (m :: rest)).1
    simp only [LowStockWarningSubscriber.scan]
    split
    · split
      · exact List.Forall₂.cons ⟨rfl, fun _ => rfl, id⟩ (forall₂_machStep_refl rest)
      · exact List.Forall₂.cons (machStep_rfl m) (forall₂_machStep_refl rest)
    · exact List.Forall₂.cons (machStep_rfl m) (scanW_mono mid rest)

lemma scanO_mono (mid : String) :
    ∀ ms, List.Forall₂ MachStep ms (StockLevelOkSubscriber.scan mid ms).1
  | [] => List.Forall₂.nil
  | m :: rest => by
    show List.Forall₂ MachStep (m :: rest) (StockLevelOkSubscriber.scan mid (m :: rest)).1
    simp only [StockLevelOkSubscriber.scan]
    split
    · split
      · exact List.Forall₂.cons ⟨rfl, id, fun _ => rfl⟩ (forall₂_machStep_refl rest)
      · exact List.Forall₂.cons (machStep_rfl m) (forall₂_machStep_refl rest)
    · exact List.Forall₂.cons (machStep_rfl m) (scanO_mono mid rest)

lemma lswHandle_mono (e : IEvent) (ms : List Machine) :
    List.Forall₂ MachStep ms (LowStockWarningSubscriber.handle e ms).1 := by
  cases e <;> simp only [LowStockWarningSubscriber.handle] <;>
    first
      | exact scanW_mono _ ms
      | exact forall₂_machStep_refl ms

lemma sloHandle_mono (e : IEvent) (ms : List Machine) :
    List.Forall₂ MachStep ms (StockLevelOkSubscriber.handle e ms).1 := by
  cases e <;> simp only [StockLevelOkSubscriber.handle] <;>
    first
      | exact scanO_mono _ ms
      | exact forall₂_machStep_refl ms

lemma applyOp_mono (ms : List Machine) (op : Op) :
    List.Forall₂ MachStep ms (applyOp ms op).1 := by
  cases op with
  | saleOp q mid => exact saleHandle_mono q mid ms
  | refillOp q mid => exact refillHandle_mono q mid ms
  | lowStockOp e => exact lswHandle_mono e ms
  | stockOkOp e => exact sloHandle_mono e ms

lemma runOps_mono : ∀ (ops : List Op) (ms : List Machine),
    List.Forall₂ MachStep ms (runOps ops ms)
  | [], ms => forall₂_machStep_refl ms
  | op :: rest, ms => by
    simp only [runOps]
    exact forall₂_machStep_trans (applyOp_mono ms op) (runOps_mono rest (applyOp ms op).1)

lemma firstLatchW_mono {mid : String} {ms ms' : List Machine}
    (h : List.Forall₂ MachStep ms ms') (ht : firstLatchW mid ms = true) :
    firstLatchW mid ms' = true := by
  induction h with
  | nil => simp [firstLatchW] at ht
  | @cons a b l₁ l₂ hab htail ih =>
    simp only [firstLatchW] at ht ⊢
    rw [hab.1]
    by_cases hid : a.id = mid
    · rw [if_pos hid] at ht ⊢
      exact hab.2.1 ht
    · rw [if_neg hid] at ht ⊢
      exact ih ht

lemma if_latch_mono {b b' : Bool} (h : b = true → b' = true) :
    (if b' then 0 else 1 : Nat) ≤ if b then 0 else 1 := by
  cases b with
  | true => simp [h rfl]
  | false => cases b' <;> simp

lemma scanW_emits (mid' : String) :
    ∀ ms, (LowStockWarningSubscriber.scan mid' ms).2 = []
      ∨ (LowStockWarningSubscriber.scan mid' ms).2 = [IEvent.LowStockWarningEvent mid']
  | [] => Or.inl rfl
  | m :: rest => by
    simp only [LowStockWarningSubscriber.scan]
    by_cases h : m.id = mid'
    · rw [if_pos h]
      by_cases h2 : m.stockLevel < 3 ∧ m.lowStockWarningFired = false
      · rw [if_pos h2]
        right
        simp [h]
      · rw [if_neg h2]
        left
        rfl
    · rw [if_neg h]
      exact scanW_emits mid' rest

lemma scanW_latch_other {mid mid' : String} (hne : mid ≠ mid') :
    ∀ ms, firstLatchW mid (LowStockWarningSubscriber.scan mid' ms).1 = firstLatchW mid ms
  | [] => rfl
  | m :: rest => by
    simp only [LowStockWarningSubscriber.scan]
    by_cases h : m.id = mid'
    · have hm : ¬m.id = mid := by
        rw [h]
        exact fun e => hne e.symm
      by_cases h2 : m.stockLevel < 3 ∧ m.lowStockWarningFired = false
      · rw [if_pos h, if_pos h2]
        show firstLatchW mid ({ m with lowStockWarningFired := true } :: rest) = _
        simp only [firstLatchW]
        simp [hm]
      · rw [if_pos h, if_neg h2]
    · rw [if_neg h]
      show firstLatchW mid (m :: (LowStockWarningSubscriber.scan mid' rest).1) = _
      simp only [firstLatchW]
      by_cases hm : m.id = mid
      · rw [if_pos hm, if_pos hm]
      · rw [if_neg hm, if_neg hm]
        exact scanW_latch_other hne rest

lemma scanW_invariant_self (mid : String) :
    ∀ ms, countWarn mid (LowStockWarningSubscriber.scan mid ms).2
        + (if firstLatchW mid (LowStockWarningSubscriber.scan mid ms).1 then 0 else 1)
      ≤ (if firstLatchW mid ms then 0 else 1)
  | [] => by simp [LowStockWarningSubscriber.scan, countWarn, firstLatchW]
  | m :: rest => by
    simp only [LowStockWarningSubscriber.scan]
    by_cases h : m.id = mid
    · by_cases h2 : m.stockLevel < 3 ∧ m.lowStockWarningFired = false
      · rw [if_pos h, if_pos h2]
        simp [countWarn, firstLatchW, h, h2.2]
      · rw [if_pos h, if_neg h2]
        simp [countWarn]
    · rw [if_neg h]
      show countWarn mid (LowStockWarningSubscriber.scan mid rest).2
          + (if firstLatchW mid (m :: (LowStockWarningSubscriber.scan mid rest).1) then 0 else 1)
        ≤ (if firstLatchW mid (m :: rest) then 0 else 1)
      simp only [firstLatchW, if_neg h]
      exact scanW_invariant_self mid rest

lemma lswHandle_invariant (mid : String) (e : IEvent) (ms : List Machine) :
    countWarn mid (LowStockWarningSubscriber.handle e ms).2
      + (if firstLatchW mid (LowStockWarningSubscriber.handle e ms).1 then 0 else 1)
      ≤ (if firstLatchW mid ms then 0 else 1) := by
  cases e with
  | MachineSaleEvent q mid' =>
    simp only [LowStockWarningSubscriber.handle]
    by_cases h : mid = mid'
    · subst h
      exact scanW_invariant_self mid ms
    · simp only [scanW_latch_other h ms]
      have hcount : countWarn mid (LowStockWarningSubscriber.scan mid' ms).2 = 0 := by
        cases scanW_emits mid' ms with
        | inl he => simp [countWarn, he]
        | inr he =>
          simp [countWarn, he]
          exact fun hh => h hh.symm
      rw [hcount]
      simp
  | MachineRefillEvent q mid' => simp [LowStockWarningSubscriber.handle, countWarn]
  | LowStockWarningEvent mid' => simp [LowStockWarningSubscriber.handle, countWarn]
  | StockLevelOkEvent mid' => simp [LowStockWarningSubscriber.handle, countWarn]

lemma firstLatchO_mono {mid : String} {ms ms' : List Machine}
    (h : List.Forall₂ MachStep ms ms') (ht : firstLatchO mid ms = true) :
    firstLatchO mid ms' = true := by
  induction h with
  | nil => simp [firstLatchO] at ht
  | @cons a b l₁ l₂ hab htail ih =>
    simp only [firstLatchO] at ht ⊢
    rw [hab.1]
    by_cases hid : a.id = mid
    · rw [if_pos hid] at ht ⊢
      exact hab.2.2 ht
    · rw [if_neg hid] at ht ⊢
      exact ih ht

lemma scanO_emits (mid' : String) :
    ∀ ms, (StockLevelOkSubscriber.scan mid' ms).2 = []
      ∨ (StockLevelOkSubscriber.scan mid' ms).2 = [IEvent.StockLevelOkEvent mid']
  | [] => Or.inl rfl
  | m :: rest => by
    simp only [StockLevelOkSubscriber.scan]
    by_cases h : m.id = mid'
    · rw [if_pos h]
      by_cases h2 : 3 ≤ m.stockLevel ∧ m.stockLevelOkFired = false
      · rw [if_pos h2]
        right
        simp [h]
      · rw [if_neg h2]
        left
        rfl
    · rw [if_neg h]
      exact scanO_emits mid' rest

lemma scanO_latch_other {mid mid' : String} (hne : mid ≠ mid') :
    ∀ ms, firstLatchO mid (StockLevelOkSubscriber.scan mid' ms).1 = firstLatchO mid ms
  | [] => rfl
  | m :: rest => by
    simp only [StockLevelOkSubscriber.scan]
    by_cases h : m.id = mid'
    · have hm : ¬m.id = mid := by
        rw [h]
        exact fun e => hne e.symm
      by_cases h2 : 3 ≤ m.stockLevel ∧ m.stockLevelOkFired = false
      · rw [if_pos h, if_pos h2]
        show firstLatchO mid ({ m with stockLevelOkFired := true } :: rest) = _
        simp only [firstLatchO]
        simp [hm]
      · rw [if_pos h, if_neg h2]
    · rw [if_neg h]
      show firstLatchO mid (m :: (StockLevelOkSubscriber.scan mid' rest).1) = _
      simp only [firstLatchO]
      by_cases hm : m.id = mid
      · rw [if_pos hm, if_pos hm]
      · rw [if_neg hm, if_neg hm]
        exact scanO_latch_other hne rest

lemma scanO_invariant_self (mid : String) :
    ∀ ms, countOk mid (StockLevelOkSubscriber.scan mid ms).2
        + (if firstLatchO mid (StockLevelOkSubscriber.scan mid ms).1 then 0 else 1)
      ≤ (if firstLatchO mid ms then 0 else 1)
  | [] => by simp [StockLevelOkSubscriber.scan, countOk, firstLatchO]
  | m :: rest => by
    simp only [StockLevelOkSubscriber.scan]
    by_cases h : m.id = mid
    · by_cases h2 : 3 ≤ m.stockLevel ∧ m.stockLevelOkFired = false
      · rw [if_pos h, if_pos h2]
        simp [countOk, firstLatchO, h, h2.2]
      · rw [if_pos h, if_neg h2]
        simp [countOk]
    · rw [if_neg h]
      show countOk mid (StockLevelOkSubscriber.scan mid rest).2
          + (if firstLatchO mid (m :: (StockLevelOkSubscriber.scan mid rest).1) then 0 else 1)
        ≤ (if firstLatchO mid (m :: rest) then 0 else 1)
      simp only [firstLatchO, if_neg h]
      exact scanO_invariant_self mid rest

lemma sloHandle_invariant (mid : String) (e : IEvent) (ms : List Machine) :
    countOk mid (StockLevelOkSubscriber.handle e ms).2
      + (if firstLatchO mid (StockLevelOkSubscriber.handle e ms).1 then 0 else 1)
      ≤ (if firstLatchO mid ms then 0 else 1) := by
  cases e with
  | MachineRefillEvent q mid' =>
    simp only [StockLevelOkSubscriber.handle]
    by_cases h : mid = mid'
    · subst h
      exact scanO_invariant_self mid ms
    · simp only [scanO_latch_other h ms]
      have hcount : countOk mid (StockLevelOkSubscriber.scan mid' ms).2 = 0 := by
        cases scanO_emits mid' ms with
        | inl he => simp [countOk, he]
        | inr he =>
          simp [countOk, he]
          exact fun hh => h hh.symm
      rw [hcount]
      simp
  | MachineSaleEvent q mid' => simp [StockLevelOkSubscriber.handle, countOk]
  | LowStockWarningEvent mid' => simp [StockLevelOkSubscriber.handle, countOk]
  | StockLevelOkEvent mid' => simp [StockLevelOkSubscriber.handle, countOk]

lemma lswRunCount_le (mid : String) :
    ∀ (ops : List Op) (ms : List Machine),
      lswRunCount mid ops ms ≤ (if firstLatchW mid ms then 0 else 1)
  | [], ms => by simp [lswRunCount]
  | op :: rest, ms => by
    have ih := lswRunCount_le mid rest (applyOp ms op).1
    have hmono : (if firstLatchW mid (applyOp ms op).1 then 0 else 1 : Nat)
        ≤ if firstLatchW mid ms then 0 else 1 :=
      if_latch_mono (fun ht => firstLatchW_mono (applyOp_mono ms op) ht)
    cases op with
    | lowStockOp e =>
      have hstep := lswHandle_invariant mid e ms
      simp only [lswRunCount, applyOp] at ih ⊢
      calc countWarn mid (LowStockWarningSubscriber.handle e ms).2
            + lswRunCount mid rest (LowStockWarningSubscriber.handle e ms).1
          ≤ countWarn mid (LowStockWarningSubscriber.handle e ms).2
            + (if firstLatchW mid (LowStockWarningSubscriber.handle e ms).1 then 0 else 1) :=
            Nat.add_le_add_left ih _
        _ ≤ (if firstLatchW mid ms then 0 else 1) := hstep
    | saleOp q mid' =>
      simp only [lswRunCount, applyOp, Nat.zero_add] at ih ⊢
      exact le_trans ih hmono
    | refillOp q mid' =>
      simp only [lswRunCount, applyOp, Nat.zero_add] at ih ⊢
      exact le_trans ih hmono
    | stockOkOp e =>
      simp only [lswRunCount, applyOp, Nat.zero_add] at ih ⊢
      exact le_trans ih hmono

lemma sloRunCount_le (mid : String) :
    ∀ (ops : List Op) (ms : List Machine),
      sloRunCount mid ops ms ≤ (if firstLatchO mid ms then 0 else 1)
  | [], ms => by simp [sloRunCount]
  | op :: rest, ms => by
    have ih := sloRunCount_le mid rest (applyOp ms op).1
    have hmono : (if firstLatchO mid (applyOp ms op).1 then 0 else 1 : Nat)
        ≤ if firstLatchO mid ms then 0 else 1 :=
      if_latch_mono (fun ht => firstLatchO_mono (applyOp_mono ms op) ht)
    cases op with
    | stockOkOp e =>
      have hstep := sloHandle_invariant mid e ms
      simp only [sloRunCount, applyOp] at ih ⊢
      calc countOk mid (StockLevelOkSubscriber.handle e ms).2
            + sloRunCount mid rest (StockLevelOkSubscriber.handle e ms).1
          ≤ countOk mid (StockLevelOkSubscriber.handle e ms).2
            + (if firstLatchO mid (StockLevelOkSubscriber.handle e ms).1 then 0 else 1) :=
            Nat.add_le_add_left ih _
        _ ≤ (if firstLatchO mid ms then 0 else 1) := hstep
    | saleOp q mid' =>
      simp only [sloRunCount, applyOp, Nat.zero_add] at ih ⊢
      exact le_trans ih hmono
    | refillOp q mid' =>
      simp only [sloRunCount, applyOp, Nat.zero_add] at ih ⊢
      exact le_trans ih hmono
    | lowStockOp e =>
      simp only [sloRunCount, applyOp, Nat.zero_add] at ih ⊢
      exact le_trans ih hmono

lemma firstLatchW_create (mid : String) :
    ∀ ids : List String, firstLatchW mid (ids.map Machine.create) = false
  | [] => rfl
  | i :: rest => by
    simp only [List.map, firstLatchW, Machine.create]
    by_cases h : i = mid
    · simp [h]
    · simp [h, firstLatchW_create mid rest]

lemma firstLatchO_create (mid : String) :
    ∀ ids : List String, firstLatchO mid (ids.map Machine.create) = false
  | [] => rfl
  | i :: rest => by
    simp only [List.map, firstLatchO, Machine.create]
    by_cases h : i = mid
    · simp [h]
    · simp [h, firstLatchO_create mid rest]

/-!
## Lemmas: the dispatcher's snapshot delivery
-/
lemma applyRegAction_next_mono (ps : PublishSubscribeService) (a : RegAction) :
    ps.next ≤ (applyRegAction ps a).next := by
  cases a with
  | subscribeAct t h =>
    simp only [applyRegAction, PublishSubscribeService.subscribe]
    rcases hd : ps.subscribers t with _ | aid <;> simp [hd]
  | unsubscribeAct t h =>
    simp only [applyRegAction, PublishSubscribeService.unsubscribe]
    rcases hd : ps.subscribers t with _ | aid <;> simp [hd]

lemma applyRegAction_arrays_extend (ps : PublishSubscribeService) (a : RegAction) (aid : Nat)
    (hlt : aid < ps.next) :
    ∃ t, (applyRegAction ps a).arrays aid = ps.arrays aid ++ t := by
  cases a with
  | subscribeAct ty h =>
    simp only [applyRegAction, PublishSubscribeService.subscribe]
    rcases hd : ps.subscribers ty with _ | aid'
    · exact ⟨[], by simp [hd, Nat.ne_of_lt hlt]⟩
    · by_cases he : aid = aid'
      · subst he
        exact ⟨[h], by simp [hd]⟩
      · exact ⟨[], by simp [hd, he]⟩
  | unsubscribeAct ty h =>
    simp only [applyRegAction, PublishSubscribeService.unsubscribe]
    rcases hd : ps.subscribers ty with _ | aid'
    · exact ⟨[], by simp [hd]⟩
    · exact ⟨[], by simp [hd, Nat.ne_of_lt hlt]⟩

lemma foldl_regActions_extend :
    ∀ (acts : List RegAction) (ps : PublishSubscribeService) (aid : Nat), aid < ps.next →
      (∃ t, (acts.foldl applyRegAction ps).arrays aid = ps.arrays aid ++ t)
      ∧ aid < (acts.foldl applyRegAction ps).next
  | [], ps, aid, h => ⟨⟨[], by simp⟩, h⟩
  | a :: rest, ps, aid, h => by
    have h2 : aid < (applyRegAction ps a).next :=
      lt_of_lt_of_le h (applyRegAction_next_mono ps a)
    obtain ⟨t1, ht1⟩ := applyRegAction_arrays_extend ps a aid h
    obtain ⟨⟨t2, ht2⟩, hn⟩ := foldl_regActions_extend rest (applyRegAction ps a) aid h2
    refine ⟨⟨t1 ++ t2, ?_⟩, hn⟩
    simp only [List.foldl_cons]
    rw [ht2, ht1, List.append_assoc]

lemma publishLoop_invoked (behavior : Nat → List RegAction) (aid : Nat) (orig : List Nat) :
    ∀ (n : Nat) (ps : PublishSubscribeService), n ≤ orig.length →
      (∃ t, ps.arrays aid = orig ++ t) → aid < ps.next →
      (PublishSubscribeService.publishLoop behavior aid orig.length n ps).2
        = orig.drop (orig.length - n) := by
  intro n
  induction n with
  | zero =>
    intro ps _ _ _
    simp [PublishSubscribeService.publishLoop]
  | succ k ih =>
    intro ps hn hpre hlt
    obtain ⟨t, ht⟩ := hpre
    have hidx : orig.length - (k + 1) < orig.length := by omega
    have hget : (ps.arrays aid)[orig.length - (k + 1)]? = some orig[orig.length - (k + 1)] := by
      rw [ht, List.getElem?_append_left hidx]
      exact List.getElem?_eq_getElem hidx
    have hfold := foldl_regActions_extend (behavior orig[orig.length - (k + 1)]) ps aid hlt
    obtain ⟨⟨t2, ht2⟩, hn2⟩ := hfold
    have hrec := ih ((behavior orig[orig.length - (k + 1)]).foldl applyRegAction ps)
      (by omega) ⟨t ++ t2, by rw [ht2, ht, List.append_assoc]⟩ hn2
    simp only [PublishSubscribeService.publishLoop, hget]
    rw [hrec]
    have hsub : orig.length - (k + 1) + 1 = orig.length - k := by omega
    have hdrop : orig.drop (orig.length - (k + 1))
        = orig[orig.length - (k + 1)] :: orig.drop (orig.length - k) := by
      rw [List.drop_eq_getElem_cons hidx, hsub]
    rw [hdrop]

/-- The snapshot property of `publish`: the handlers invoked by one delivery
pass are exactly the contents, at the moment `publish` begins, of the array
then registered for the kind — whatever registry calls the invoked handlers
make during the pass.  `aid < ps.next` says the captured array id was
allocated (every reachable registry state satisfies it). -/
lemma publish_invoked_snapshot (behavior : Nat → List RegAction)
    (ps : PublishSubscribeService) (type : String) (aid : Nat)
    (hd : ps.subscribers type = some aid) (hlt : aid < ps.next) :
    (PublishSubscribeService.publish behavior ps type).2 = ps.arrays aid := by
  simp only [PublishSubscribeService.publish, hd]
  have := publishLoop_invoked behavior aid (ps.arrays aid) (ps.arrays aid).length ps
    (le_refl _) ⟨[], (List.append_nil _).symm⟩ hlt
  rw [this, Nat.sub_self, List.drop_zero]

/-!
## Lemmas: unknown machine id, uncaught exceptions
-/
lemma saleHandle_no_match (q : Int) (mid : String) :
    ∀ ms, (∀ x ∈ ms, ¬x.id = mid) → MachineSaleSubscriber.handle q mid ms = (ms, [])
  | [], _ => rfl
  | m :: rest, hall => by
    have hm := hall m (List.mem_cons_self m rest)
    simp only [MachineSaleSubscriber.handle, if_neg hm]
    rw [saleHandle_no_match q mid rest (fun x hx => hall x (List.mem_cons_of_mem m hx))]

lemma refillHandle_no_match (q : Int) (mid : String) :
    ∀ ms, (∀ x ∈ ms, ¬x.id = mid) → MachineRefillSubscriber.handle q mid ms = (ms, [])
  | [], _ => rfl
  | m :: rest, hall => by
    have hm := hall m (List.mem_cons_self m rest)
    simp only [MachineRefillSubscriber.handle, if_neg hm]
    rw [refillHandle_no_match q mid rest (fun x hx => hall x (List.mem_cons_of_mem m hx))]

lemma scanW_no_match (mid : String) :
    ∀ ms, (∀ x ∈ ms, ¬x.id = mid) → LowStockWarningSubscriber.scan mid ms = (ms, [])
  | [], _ => rfl
  | m :: rest, hall => by
    have hm := hall m (List.mem_cons_self m rest)
    simp only [LowStockWarningSubscriber.scan, if_neg hm]
    rw [scanW_no_match mid rest (fun x hx => hall x (List.mem_cons_of_mem m hx))]

lemma scanO_no_match (mid : String) :
    ∀ ms, (∀ x ∈ ms, ¬x.id = mid) → StockLevelOkSubscriber.scan mid ms = (ms, [])
  | [], _ => rfl
  | m :: rest, hall => by
    have hm := hall m (List.mem_cons_self m rest)
    simp only [StockLevelOkSubscriber.scan, if_neg hm]
    rw [scanO_no_match mid rest (fun x hx => hall x (List.mem_cons_of_mem m hx))]

lemma deliverNoCatch_ok (throws : Nat → Option String) :
    ∀ l, (∀ x ∈ l, throws x = none) → deliverNoCatch throws l = (l, none)
  | [], _ => rfl
  | h :: rest, hall => by
    have h1 := hall h (List.mem_cons_self h rest)
    simp only [deliverNoCatch, h1]
    rw [deliverNoCatch_ok throws rest (fun x hx => hall x (List.mem_cons_of_mem h hx))]

lemma deliverNoCatch_throwing (throws : Nat → Option String) :
    ∀ (pre : List Nat) (h : Nat) (post : List Nat) (e : String),
      (∀ x ∈ pre, throws x = none) → throws h = some e →
      deliverNoCatch throws (pre ++ h :: post) = (pre ++ [h], some e)
  | [], h, post, e, _, hth => by simp [deliverNoCatch, hth]
  | p :: pre, h, post, e, hall, hth => by
    have h1 := hall p (List.mem_cons_self p pre)
    simp only [List.cons_append, deliverNoCatch, h1]
    show (p :: (deliverNoCatch throws (pre ++ h :: post)).1,
        (deliverNoCatch throws (pre ++ h :: post)).2) = _
    rw [deliverNoCatch_throwing throws pre h post e
      (fun x hx => hall x (List.mem_cons_of_mem p hx)) hth]

/-!
## Claim theorems
-/

/-- C1: the claim says LowStockWarning fires at most once per below-threshold
episode.  The code disagrees: `MachineSaleSubscriber.handle` (the only
handler the program attaches to kind "sale") publishes a `LowStockWarningEvent`
on EVERY sale that leaves the stock below 3 — its own comment announces a
"no warning event has been fired yet" check, but no latch is read or written.
Starting from a fresh machine (stock 10), a sale of 8 (stock 2) and then a
sale of 1 (stock 1) each publish a warning. -/
theorem sale_handler_reemits_warning_below_threshold :
    (MachineSaleSubscriber.handle 8 "001" [Machine.create "001"]).2
        = [IEvent.LowStockWarningEvent "001"]
    ∧ (MachineSaleSubscriber.handle 1 "001"
          (MachineSaleSubscriber.handle 8 "001" [Machine.create "001"]).1).2
        = [IEvent.LowStockWarningEvent "001"] := by decide

/-- C2: the claim says the sale step publishes LowStockWarning iff the
resulting stock is below 3 AND the low-stock latch was idle, setting the
latch when it fires.  The code disagrees on both latch clauses:
(i) with the latch already set (`lowStockWarningFired = true`) and stock
falling 2 → 1, `MachineSaleSubscriber.handle` still publishes the warning;
(ii) on a genuine idle-latch crossing (10 → 2) it publishes but leaves the
latch `false`.  (The latch-guarded publication lives in
`LowStockWarningSubscriber`, which the program wires to kind
"low_stock_warning" — a kind no event carries — and which does not
decrement.) -/
theorem sale_handler_ignores_and_never_sets_latch :
    (MachineSaleSubscriber.handle 1 "001"
        [{ id := "001", stockLevel := 2, lowStockWarningFired := true,
           stockLevelOkFired := false }]).2
        = [IEvent.LowStockWarningEvent "001"]
    ∧ (MachineSaleSubscriber.handle 8 "001" [Machine.create "001"]).1
        = [{ id := "001", stockLevel := 2, lowStockWarningFired := false,
             stockLevelOkFired := false }] := by decide

/-- C3: `MachineRefillSubscriber.handle` adds exactly the event quantity to
the matched machine's stock, and publishes `StockLevelOkEvent` for it iff
the stock before the increment was below 3 and the stock after it is at
least 3 (in particular, a refill while already at least 3 publishes
nothing). -/
theorem refill_increments_and_publishes_iff_upward_crossing
    (ms : List Machine) (q : Int) (mid : String) (m : Machine)
    (h : ms.find? (fun x => x.id == mid) = some m) :
    (MachineRefillSubscriber.handle q mid ms).2
        = (if m.stockLevel < 3 ∧ 3 ≤ m.stockLevel + q
           then [IEvent.StockLevelOkEvent m.id] else [])
    ∧ (MachineRefillSubscriber.handle q mid ms).1.find? (fun x => x.id == mid)
        = some { m with stockLevel := m.stockLevel + q } := by
  induction ms with
  | nil => simp at h
  | cons a rest ih =>
    by_cases hid : a.id = mid
    · have hpa : (a.id == mid) = true := by simp [hid]
      rw [List.find?_cons_of_pos rest hpa] at h
      injection h with hm
      subst hm
      constructor
      · by_cases hc : a.stockLevel < 3 ∧ 3 ≤ a.stockLevel + q
        · simp [MachineRefillSubscriber.handle, hid, hc]
        · simp [MachineRefillSubscriber.handle, hid, hc]
      · by_cases hc : a.stockLevel < 3 ∧ 3 ≤ a.stockLevel + q
        · simp [MachineRefillSubscriber.handle, hid, hc, List.find?]
        · simp [MachineRefillSubscriber.handle, hid, hc, List.find?]
    · have hpa : ¬((a.id == mid) = true) := by simp [hid]
      rw [List.find?_cons_of_neg rest hpa] at h
      obtain ⟨ih1, ih2⟩ := ih h
      constructor
      · simp only [MachineRefillSubscriber.handle, if_neg hid]
        exact ih1
      · simp only [MachineRefillSubscriber.handle, if_neg hid]
        show (a :: (MachineRefillSubscriber.handle q mid rest).1).find?
            (fun x => x.id == mid) = _
        have hfa : (a.id == mid) = false := by simp [hid]
        simp only [List.find?, hfa]
        exact ih2

/-- Witness for C3 at a concrete input: machine "001" at stock 1, refill by
5 → stock 6, `StockLevelOkEvent` published. -/
theorem refill_increments_witness :
    (([{ id := "001", stockLevel := 1, lowStockWarningFired := true,
          stockLevelOkFired := false }] : List Machine).find? (fun x => x.id == "001")
      = some { id := "001", stockLevel := 1, lowStockWarningFired := true,
                stockLevelOkFired := false })
    ∧ ((MachineRefillSubscriber.handle 5 "001"
          [{ id := "001", stockLevel := 1, lowStockWarningFired := true,
              stockLevelOkFired := false }]).2
        = (if (1 : Int) < 3 ∧ (3 : Int) ≤ 1 + 5
           then [IEvent.StockLevelOkEvent "001"] else [])
      ∧ (MachineRefillSubscriber.handle 5 "001"
          [{ id := "001", stockLevel := 1, lowStockWarningFired := true,
              stockLevelOkFired := false }]).1.find? (fun x => x.id == "001")
        = some { id := "001", stockLevel := 1 + 5, lowStockWarningFired := true,
                  stockLevelOkFired := false }) :=
  ⟨by decide,
   refill_increments_and_publishes_iff_upward_crossing
     [{ id := "001", stockLevel := 1, lowStockWarningFired := true,
        stockLevelOkFired := false }] 5 "001"
     { id := "001", stockLevel := 1, lowStockWarningFired := true,
       stockLevelOkFired := false } (by decide)⟩

/-- C4 counterexample: the claim says a step carrying the stock across the
threshold clears the opposite latch.  Concretely: machine "001" at stock 1
with `lowStockWarningFired = true`; a refill of 5 crosses upward (1 → 6),
yet the low-stock latch is still `true` afterwards — nothing cleared it. -/
theorem upward_crossing_leaves_low_latch_set :
    MachineRefillSubscriber.handle 5 "001"
        [{ id := "001", stockLevel := 1, lowStockWarningFired := true,
           stockLevelOkFired := false }]
      = ([{ id := "001", stockLevel := 6, lowStockWarningFired := true,
            stockLevelOkFired := false }],
         [IEvent.StockLevelOkEvent "001"]) := by decide

/-- C4 (amended): no handler step ever clears either latch.  Every
invocation of the four subscribers' `handle` methods preserves each
machine's id and can only leave each latch unchanged or set it to `true`;
no threshold crossing resets the opposite latch. -/
theorem handler_step_never_clears_latches (ms : List Machine) (op : Op) :
    List.Forall₂ MachStep ms (applyOp ms op).1 :=
  applyOp_mono ms op

/-- Witness for the amended C4 at a concrete input: the upward-crossing
refill step from the counterexample preserves ids and latches. -/
theorem handler_step_never_clears_latches_witness :
    List.Forall₂ MachStep
      [{ id := "001", stockLevel := 1, lowStockWarningFired := true,
          stockLevelOkFired := false }]
      ((applyOp [{ id := "001", stockLevel := 1, lowStockWarningFired := true,
                    stockLevelOkFired := false }] (Op.refillOp 5 "001")).1) :=
  handler_step_never_clears_latches
    [{ id := "001", stockLevel := 1, lowStockWarningFired := true,
       stockLevelOkFired := false }] (Op.refillOp 5 "001")

/-- C5: one `publish` pass invokes exactly the handlers registered for the
event's kind at the moment publish begins, in registration order — a
snapshot.  Handlers may subscribe or unsubscribe anything during the pass
(the `behavior` argument is universally quantified over all such registry
call sequences) without changing which handlers the pass invokes or their
order.  `aid < ps.next` states that the captured array id was allocated,
true of every reachable registry state. -/
theorem publish_delivers_snapshot_in_registration_order
    (behavior : Nat → List RegAction) (ps : PublishSubscribeService) (type : String)
    (aid : Nat) (hd : ps.subscribers type = some aid) (hlt : aid < ps.next) :
    (PublishSubscribeService.publish behavior ps type).2 = ps.arrays aid :=
  publish_invoked_snapshot behavior ps type aid hd hlt

/-- Witness for C5 at a concrete input: three handlers `[1, 2, 3]` are
registered for "sale"; each invoked handler unsubscribes itself and
subscribes a new handler 99 mid-pass, yet the pass still invokes exactly
`[1, 2, 3]`. -/
theorem publish_snapshot_witness :
    (sampleService.subscribers "sale" = some 0)
    ∧ (0 : Nat) < 1
    ∧ (PublishSubscribeService.publish
          (fun h => [RegAction.unsubscribeAct "sale" h, RegAction.subscribeAct "sale" 99])
          sampleService "sale").2
        = [1, 2, 3] :=
  ⟨rfl, Nat.zero_lt_one, by
    rw [publish_delivers_snapshot_in_registration_order
      (fun h => [RegAction.unsubscribeAct "sale" h, RegAction.subscribeAct "sale" 99])
      sampleService "sale" 0 rfl Nat.zero_lt_one]
    rfl⟩

/-- C6: `unsubscribe(kind, handler)` removes every occurrence of exactly
that handler (identity comparison) from the sequence registered for the
kind and nothing else; it is a no-op (and total, hence raises nothing) when
the kind has no registrations or the handler is not present; and a
subsequent `publish` to that kind does not invoke the removed handler. -/
theorem unsubscribe_removes_exactly_handler
    (ps : PublishSubscribeService) (type : String) (handler : Nat) :
    (ps.subscribers type = none → ps.unsubscribe type handler = ps)
    ∧ (∀ aid, ps.subscribers type = some aid →
        (ps.unsubscribe type handler).subscribers type = some ps.next
        ∧ (ps.unsubscribe type handler).arrays ps.next
            = (ps.arrays aid).filter (fun x => x != handler)
        ∧ handler ∉ (ps.unsubscribe type handler).arrays ps.next
        ∧ (∀ k, k ≠ type → (ps.unsubscribe type handler).subscribers k = ps.subscribers k)
        ∧ (∀ a, a ≠ ps.next → (ps.unsubscribe type handler).arrays a = ps.arrays a)
        ∧ (handler ∉ ps.arrays aid →
            (ps.unsubscribe type handler).arrays ps.next = ps.arrays aid)
        ∧ (∀ behavior, handler ∉
            (PublishSubscribeService.publish behavior (ps.unsubscribe type handler) type).2)) := by
  constructor
  · intro hn
    simp [PublishSubscribeService.unsubscribe, hn]
  · intro aid hd
    have hunfold : ps.unsubscribe type handler =
        { subscribers := fun k => if k = type then some ps.next else ps.subscribers k
          arrays := fun a => if a = ps.next
                             then (ps.arrays aid).filter (fun x => x != handler)
                             else ps.arrays a
          next := ps.next + 1 } := by
      simp [PublishSubscribeService.unsubscribe, hd]
    refine ⟨?_, ?_, ?_, ?_, ?_, ?_, ?_⟩
    · rw [hunfold]
      simp
    · rw [hunfold]
      simp
    · rw [hunfold]
      simp [List.mem_filter]
    · intro k hk
      rw [hunfold]
      simp [hk]
    · intro a ha
      rw [hunfold]
      simp [ha]
    · intro habs
      rw [hunfold]
      show (if ps.next = ps.next
          then (ps.arrays aid).filter (fun x => x != handler)
          else ps.arrays ps.next) = ps.arrays aid
      rw [if_pos rfl, List.filter_eq_self]
      intro a hmem
      simp only [bne_iff_ne, ne_eq]
      exact fun he => habs (he ▸ hmem)
    · intro behavior
      have hd' : (ps.unsubscribe type handler).subscribers type = some ps.next := by
        rw [hunfold]
        simp
      have hlt' : ps.next < (ps.unsubscribe type handler).next := by
        rw [hunfold]
        exact Nat.lt_succ_self ps.next
      rw [publish_invoked_snapshot behavior _ type ps.next hd' hlt', hunfold]
      simp [List.mem_filter]

/-- Witness for C6 at a concrete input: handler 1 is registered twice (array
`[1, 2, 1]`); unsubscribing it leaves `[2]`, keeps other kinds untouched,
and a subsequent publish invokes only `[2]`. -/
theorem unsubscribe_witness :
    (sampleServiceDup.subscribers "sale" = some 0)
    ∧ ((sampleServiceDup.unsubscribe "sale" 1).subscribers "sale" = some 1)
    ∧ ((sampleServiceDup.unsubscribe "sale" 1).arrays 1 = [2])
    ∧ (1 : Nat) ∉ (PublishSubscribeService.publish (fun _ => [])
        (sampleServiceDup.unsubscribe "sale" 1) "sale").2 := by
  have h := (unsubscribe_removes_exactly_handler sampleServiceDup "sale" 1).2 0 rfl
  exact ⟨rfl, h.1, (h.2.1).trans (by decide), h.2.2.2.2.2.2 (fun _ => [])⟩

/-- C7: publishing an event whose kind has zero registered subscribers (no
registry entry at all, or an entry holding the empty sequence) returns
normally with no machine mutated, no event emitted, and the registry and
machine list unchanged. -/
theorem publish_without_subscribers_is_noop (st : SystemState) (e : IEvent)
    (h : st.registry e.type = none ∨ st.registry e.type = some []) :
    systemPublish st e = (st, []) := by
  cases h with
  | inl h => simp [systemPublish, h]
  | inr h => simp [systemPublish, h, deliverAll]

/-- Witness for C7 at a concrete input: an empty registry, one machine, a
sale event — publish is an exact no-op. -/
theorem publish_without_subscribers_witness :
    (sampleSystem.registry (IEvent.MachineSaleEvent 1 "001").type = none)
    ∧ systemPublish sampleSystem (IEvent.MachineSaleEvent 1 "001") = (sampleSystem, []) :=
  ⟨rfl, publish_without_subscribers_is_noop sampleSystem
    (IEvent.MachineSaleEvent 1 "001") (Or.inl rfl)⟩

/-- C8: a Sale or Refill event whose machineId matches no machine is a
silent no-op for every handler that scans the machine list: the machine
list is returned unchanged, nothing is published, and (the functions being
total) nothing is raised.  Stated for all four subscribers' `handle`. -/
theorem handlers_ignore_unknown_machine_id (q q2 : Int) (mid : String) (ms : List Machine)
    (h : ms.find? (fun x => x.id == mid) = none) :
    MachineSaleSubscriber.handle q mid ms = (ms, [])
    ∧ MachineRefillSubscriber.handle q2 mid ms = (ms, [])
    ∧ LowStockWarningSubscriber.handle (IEvent.MachineSaleEvent q mid) ms = (ms, [])
    ∧ StockLevelOkSubscriber.handle (IEvent.MachineRefillEvent q2 mid) ms = (ms, []) := by
  have hall : ∀ x ∈ ms, ¬x.id = mid := by
    intro x hx
    have := List.find?_eq_none.1 h x hx
    simpa using this
  exact ⟨saleHandle_no_match q mid ms hall, refillHandle_no_match q2 mid ms hall,
    scanW_no_match mid ms hall, scanO_no_match mid ms hall⟩

/-- Witness for C8 at a concrete input: machine id "999" does not exist;
sale and refill handlers leave everything unchanged and emit nothing. -/
theorem unknown_machine_witness :
    (([Machine.create "001"] : List Machine).find? (fun x => x.id == "999") = none)
    ∧ (MachineSaleSubscriber.handle 1 "999" [Machine.create "001"]
        = ([Machine.create "001"], [])
      ∧ MachineRefillSubscriber.handle 2 "999" [Machine.create "001"]
        = ([Machine.create "001"], [])
      ∧ LowStockWarningSubscriber.handle (IEvent.MachineSaleEvent 1 "999")
          [Machine.create "001"] = ([Machine.create "001"], [])
      ∧ StockLevelOkSubscriber.handle (IEvent.MachineRefillEvent 2 "999")
          [Machine.create "001"] = ([Machine.create "001"], [])) :=
  ⟨by decide, handlers_ignore_unknown_machine_id 1 2 "999" [Machine.create "001"] (by decide)⟩

/-- C9: the dispatcher wraps no handler call in try/catch.  If the handlers
before position `h` in the pass return normally and handler `h` throws,
`publish` invokes exactly the handlers up to and including `h` — none after
it — and the exception propagates to the caller; if no registered handler
throws, `publish` completes the full pass and returns no error. -/
theorem handler_exception_aborts_delivery_and_propagates
    (throws : Nat → Option String) (ps : PublishSubscribeService) (type : String)
    (aid : Nat) (hd : ps.subscribers type = some aid) :
    (∀ (pre : List Nat) (h : Nat) (post : List Nat) (e : String),
        ps.arrays aid = pre ++ h :: post →
        (∀ x ∈ pre, throws x = none) → throws h = some e →
        publishNoCatch throws ps type = (pre ++ [h], some e))
    ∧ ((∀ x ∈ ps.arrays aid, throws x = none) →
        publishNoCatch throws ps type = (ps.arrays aid, none)) := by
  constructor
  · intro pre h post e harr hpre hth
    simp only [publishNoCatch, hd]
    rw [harr]
    exact deliverNoCatch_throwing throws pre h post e hpre hth
  · intro hok
    simp only [publishNoCatch, hd]
    exact deliverNoCatch_ok throws _ hok

/-- Witness for C9 at a concrete input: handlers `[1, 2, 3]`; handler 2
throws "boom"; the pass invokes `[1, 2]` only and propagates the error. -/
theorem exception_witness :
    (sampleService.subscribers "sale" = some 0)
    ∧ (sampleService.arrays 0 = [1] ++ 2 :: [3])
    ∧ ((fun h : Nat => if h = 2 then some "boom" else none) 2 = some "boom")
    ∧ publishNoCatch (fun h : Nat => if h = 2 then some "boom" else none)
        sampleService "sale" = ([1] ++ [2], some "boom") :=
  ⟨rfl, rfl, rfl,
   (handler_exception_aborts_delivery_and_propagates
      (fun h : Nat => if h = 2 then some "boom" else none)
      sampleService "sale" 0 rfl).1 [1] 2 [3] "boom" rfl (by decide) rfl⟩

/-- C10 (implicit): over every sequence of invocations of the four
subscribers' handlers from any machine list, each machine keeps its id and
neither `lowStockWarningFired` nor `stockLevelOkFired` is ever reset from
`true` to `false`; consequently, starting from freshly created machines,
`LowStockWarningSubscriber` publishes at most one LowStockWarning per
machine over the whole run and `StockLevelOkSubscriber` publishes at most
one StockOk per machine, however many threshold crossings occur. -/
theorem latches_monotone_and_notify_at_most_once :
    (∀ (ops : List Op) (ms : List Machine), List.Forall₂ MachStep ms (runOps ops ms))
    ∧ (∀ (ids : List String) (ops : List Op) (mid : String),
        lswRunCount mid ops (ids.map Machine.create) ≤ 1
        ∧ sloRunCount mid ops (ids.map Machine.create) ≤ 1) := by
  refine ⟨fun ops ms => runOps_mono ops ms, fun ids ops mid => ⟨?_, ?_⟩⟩
  · have h := lswRunCount_le mid ops (ids.map Machine.create)
    simp only [firstLatchW_create mid ids] at h
    simpa using h
  · have h := sloRunCount_le mid ops (ids.map Machine.create)
    simp only [firstLatchO_create mid ids] at h
    simpa using h

/-- Witness for C10 at a concrete input: a run that sells below threshold
and presents the sale to `LowStockWarningSubscriber` twice still emits at
most one warning for machine "001". -/
theorem latches_monotone_witness :
    lswRunCount "001"
        [Op.saleOp 8 "001", Op.lowStockOp (IEvent.MachineSaleEvent 8 "001"),
          Op.lowStockOp (IEvent.MachineSaleEvent 0 "001")]
        (["001"].map Machine.create) ≤ 1
    ∧ sloRunCount "001"
        [Op.saleOp 8 "001", Op.lowStockOp (IEvent.MachineSaleEvent 8 "001"),
          Op.lowStockOp (IEvent.MachineSaleEvent 0 "001")]
        (["001"].map Machine.create) ≤ 1 :=
  latches_monotone_and_notify_at_most_once.2 ["001"]
    [Op.saleOp 8 "001", Op.lowStockOp (IEvent.MachineSaleEvent 8 "001"),
      Op.lowStockOp (IEvent.MachineSaleEvent 0 "001")] "001"
